import Mathlib

/-!
Verification development for the bpower2_aiinvite repository.

The file shallowly embeds the three core subsystems:
* partner-pair aggregation (`ingestion/signals.py` and
  `ingestion/management/commands/sync_partner_stats.py`),
* thread assignment (`ingestion/management/commands/assign_threads.py`),
* the classification cache (`api/views.py` LabelPreviewView together with
  `dataset/chatgpt_client.py`).

Database tables are lists of records, Django querysets become list filters,
timestamps are naturals, and the Django signal machinery is made explicit as
state transformers.  Each definition carries a comment naming the Python
function it embeds.
-/

namespace AiInvite

/-! ### Partner statistics: data model (ingestion/models.py) -/

/-- MessageRecipient.Kind: the To / Cc / Bcc choice. -/
inductive RKind
  | to
  | cc
  | bcc
deriving DecidableEq, Repr

/-- One MessageRecipient row: (message_id, person_id, kind). -/
structure Recipient where
  messageId : Nat
  personId : Nat
  kind : RKind
deriving DecidableEq, Repr

/-- The EmailMessage fields read by partner-pair aggregation.
`from_person` is a non-null foreign key (person ids are positive), so the
Python truthiness test `if msg.from_person_id` is embedded as `≠ 0`;
`delivered_to`, `sent_at`, `received_at` are nullable. -/
structure Msg where
  id : Nat
  fromPerson : Nat
  deliveredTo : Option Nat
  sentAt : Option Nat
  receivedAt : Option Nat
  userProcessed : Bool
  useless : Bool
deriving DecidableEq, Repr

/-- One PartnerStat row (a, b, msg_count, msg_processed_count, last_message_at). -/
structure StatRow where
  a : Nat
  b : Nat
  msgCount : Nat
  msgProcessedCount : Nat
  lastMessageAt : Option Nat
deriving DecidableEq, Repr

/-- The backing store slice the aggregator touches: the EmailMessage,
MessageRecipient and PartnerStat tables. -/
structure DB where
  messages : List Msg
  recipients : List Recipient
  stats : List StatRow
deriving DecidableEq, Repr

/-- `_canon_pair` (signals.py line 12): order the pair so the smaller id is first. -/
def canon_pair (x y : Nat) : Nat × Nat :=
  if x < y then (x, y) else (y, x)

/-- The TO-typed recipient person ids of one message
(the `MessageRecipient.objects.filter(message_id=…, kind=TO)` query). -/
def toIds (db : DB) (mid : Nat) : List Nat :=
  (db.recipients.filter (fun r => decide (r.messageId = mid ∧ r.kind = RKind.to))).map
    (fun r => r.personId)

/-- `_message_pairs_from_fields` (signals.py line 35): pairs from explicit fields. -/
def message_pairs_from_fields (fromPerson : Nat) (deliveredTo : Option Nat)
    (tos : List Nat) : List (Nat × Nat) :=
  let toPairs := if fromPerson ≠ 0 then tos.map (fun rid => canon_pair fromPerson rid) else []
  let dPair :=
    match deliveredTo with
    | some d => if fromPerson ≠ 0 then [canon_pair d fromPerson] else []
    | none => []
  (toPairs ++ dPair).dedup

/-- `_message_pairs` (signals.py line 18): the pairs a message contributes,
(from, each TO recipient) plus (delivered_to, from). -/
def message_pairs (db : DB) (m : Msg) : List (Nat × Nat) :=
  message_pairs_from_fields m.fromPerson m.deliveredTo (toIds db m.id)

/-- The `Exists(MessageRecipient.objects.filter(message=…, kind=TO, person_id=pid))`
subquery used by `_qualifying_messages_qs`. -/
def toHas (db : DB) (mid pid : Nat) : Bool :=
  db.recipients.any (fun r =>
    decide (r.messageId = mid ∧ r.kind = RKind.to ∧ r.personId = pid))

/-- The filter condition of `_qualifying_messages_qs` (signals.py line 44)
applied to a single message:
(from=a ∧ TO∋b) ∨ (from=b ∧ TO∋a) ∨ (delivered=a ∧ from=b) ∨ (delivered=b ∧ from=a). -/
def qualifies (db : DB) (aId bId : Nat) (m : Msg) : Bool :=
  (decide (m.fromPerson = aId) && toHas db m.id bId) ||
  (decide (m.fromPerson = bId) && toHas db m.id aId) ||
  decide (m.deliveredTo = some aId ∧ m.fromPerson = bId) ||
  decide (m.deliveredTo = some bId ∧ m.fromPerson = aId)

/-- `Count("id", distinct=True)` over the qualifying queryset. -/
def aggMsgCount (db : DB) (aId bId : Nat) : Nat :=
  (((db.messages.filter (qualifies db aId bId)).map (fun m => m.id)).dedup).length

/-- `Count("id", distinct=True, filter=Q(user_processed=True)|Q(useless=True))`. -/
def aggProcessedCount (db : DB) (aId bId : Nat) : Nat :=
  (((db.messages.filter (fun m =>
      qualifies db aId bId m && (m.userProcessed || m.useless))).map
        (fun m => m.id)).dedup).length

/-- SQL MAX over nullable values: NULLs are ignored, NULL iff no non-null input. -/
def omax : Option Nat → Option Nat → Option Nat
  | none, y => y
  | some x, none => some x
  | some x, some y => some (max x y)

/-- `Coalesce("received_at", "sent_at")` for one message. -/
def coalesceRS (m : Msg) : Option Nat :=
  match m.receivedAt with
  | some t => some t
  | none => m.sentAt

/-- `Max(Coalesce("received_at", "sent_at"))` over the qualifying queryset
(the incremental path's last_message_at). -/
def aggLast (db : DB) (aId bId : Nat) : Option Nat :=
  (db.messages.filter (qualifies db aId bId)).foldl (fun acc m => omax acc (coalesceRS m)) none

/-- `PartnerStat.objects.get_or_create(a_id=…, b_id=…)` followed by
`.update(msg_count=…, msg_processed_count=…, last_message_at=…)`:
the stored row for exactly the given ordered key becomes `row`. -/
def upsertStat (stats : List StatRow) (row : StatRow) : List StatRow :=
  if stats.any (fun r => decide (r.a = row.a ∧ r.b = row.b)) then
    stats.map (fun r => if r.a = row.a ∧ r.b = row.b then row else r)
  else
    stats ++ [row]

/-- The body of `recompute_partner_stats_for_pairs` for one pair (a_id, b_id):
aggregate over the current message set and upsert the PartnerStat row.
Note the pair is used exactly as given - the function does not canonicalize. -/
def recomputePair (db : DB) (p : Nat × Nat) : DB :=
  let row : StatRow :=
    { a := p.1
      b := p.2
      msgCount := aggMsgCount db p.1 p.2
      msgProcessedCount := aggProcessedCount db p.1 p.2
      lastMessageAt := aggLast db p.1 p.2 }
  { db with stats := upsertStat db.stats row }

/-- `recompute_partner_stats_for_pairs` (signals.py line 73). -/
def recompute_partner_stats_for_pairs (db : DB) (pairs : List (Nat × Nat)) : DB :=
  pairs.foldl recomputePair db

/-- Look up the PartnerStat row stored under the ordered key (a, b). -/
def statOf (db : DB) (aId bId : Nat) : Option StatRow :=
  db.stats.find? (fun r => decide (r.a = aId ∧ r.b = bId))

/-! ### Partner statistics: signal-driven events (ingestion/signals.py) -/

/-- Creating an EmailMessage row: insert, then `email_post_save_recompute` with
`_old_pairs = ∅` (set by `email_pre_save_capture_pairs` for an instance without pk). -/
def createMessage (db : DB) (m : Msg) : DB :=
  let db1 : DB := { db with messages := db.messages ++ [m] }
  let affected := message_pairs db1 m
  if affected.isEmpty then db1 else recompute_partner_stats_for_pairs db1 affected

/-- Saving an existing EmailMessage row: `email_pre_save_capture_pairs` captures
the pairs of the previous field values, then the row is replaced and
`email_post_save_recompute` recomputes old ∪ new. -/
def updateMessage (db : DB) (m : Msg) : DB :=
  match db.messages.find? (fun x => decide (x.id = m.id)) with
  | none => db
  | some prev =>
    let oldPairs := message_pairs_from_fields prev.fromPerson prev.deliveredTo (toIds db m.id)
    let db1 : DB := { db with messages := db.messages.map (fun x => if x.id = m.id then m else x) }
    let affected := (oldPairs ++ message_pairs db1 m).dedup
    if affected.isEmpty then db1 else recompute_partner_stats_for_pairs db1 affected

/-- Creating a MessageRecipient row: insert, then `mr_post_save_recompute`
(which recomputes `_message_pairs` of the owning message for TO links). -/
def addRecipient (db : DB) (r : Recipient) : DB :=
  let db1 : DB := { db with recipients := db.recipients ++ [r] }
  if r.kind = RKind.to then
    match db1.messages.find? (fun m => decide (m.id = r.messageId)) with
    | some m =>
      let affected := message_pairs db1 m
      if affected.isEmpty then db1 else recompute_partner_stats_for_pairs db1 affected
    | none => db1
  else
    db1

/-- Deleting a MessageRecipient row: remove, then `mr_post_delete_recompute`. -/
def deleteRecipient (db : DB) (rdel : Recipient) : DB :=
  let db1 : DB := { db with recipients := db.recipients.erase rdel }
  if rdel.kind = RKind.to then
    match db1.messages.find? (fun m => decide (m.id = rdel.messageId)) with
    | some m =>
      let affected := message_pairs db1 m
      if affected.isEmpty then db1 else recompute_partner_stats_for_pairs db1 affected
    | none => db1
  else
    db1

/-- Deleting an EmailMessage, following Django's documented deletion protocol:
the collector deletes the dependent MessageRecipient rows first (one batch
delete, after which their `post_delete` handlers run, each seeing the already
emptied MessageRecipient table), then deletes the message row and runs
`email_post_delete_recompute`, whose `_message_pairs(instance)` reads
from_person/delivered_to from the in-memory instance but queries the TO links
from the database, where they no longer exist. -/
def deleteMessage (db : DB) (mid : Nat) : DB :=
  match db.messages.find? (fun x => decide (x.id = mid)) with
  | none => db
  | some m =>
    let toRows := db.recipients.filter (fun r => decide (r.messageId = mid ∧ r.kind = RKind.to))
    let db1 : DB := { db with recipients := db.recipients.filter (fun r => decide (r.messageId ≠ mid)) }
    let db2 : DB := toRows.foldl (fun d _ =>
      let affected := message_pairs d m
      if affected.isEmpty then d else recompute_partner_stats_for_pairs d affected) db1
    let db3 : DB := { db2 with messages := db2.messages.filter (fun x => decide (x.id ≠ mid)) }
    let affected := message_pairs db3 m
    if affected.isEmpty then db3 else recompute_partner_stats_for_pairs db3 affected

/-! ### Bulk rebuild (ingestion/management/commands/sync_partner_stats.py),
run with its defaults: kinds=("to",), no --since-id, no --filter-q, and a
batch size covering the whole table (default 2000). -/

/-- `Q(recipients__isnull=True)` is false iff the message has any recipient link. -/
def hasAnyRecipient (db : DB) (mid : Nat) : Bool :=
  db.recipients.any (fun r => decide (r.messageId = mid))

/-- The base exclusion `exclude(Q(from_person=F("delivered_to")) & Q(recipients__isnull=True))`:
true iff the message is excluded. -/
def selfExcluded (db : DB) (m : Msg) : Bool :=
  decide (m.deliveredTo = some m.fromPerson) && !(hasAnyRecipient db m.id)

/-- The base queryset of `qs_emails_between` and of the command's scan. -/
def baseMessages (db : DB) : List Msg :=
  db.messages.filter (fun m => !(selfExcluded db m))

/-- The `pair_q` condition of `qs_emails_between` (sync_partner_stats.py line 48)
with kinds=("to",). -/
def pairQ (db : DB) (aId bId : Nat) (m : Msg) : Bool :=
  (decide (m.fromPerson = aId) && (decide (m.deliveredTo = some bId) || toHas db m.id bId)) ||
  (decide (m.fromPerson = bId) && (decide (m.deliveredTo = some aId) || toHas db m.id aId))

/-- `qs_emails_between(a, b)`: base exclusion, pair condition, distinct ids. -/
def qs_emails_between (db : DB) (aId bId : Nat) : List Msg :=
  (baseMessages db).filter (pairQ db aId bId)

/-- `pair_qs.values("id").count()` in `flush_to_db`. -/
def bulkMsgCount (db : DB) (aId bId : Nat) : Nat :=
  (((qs_emails_between db aId bId).map (fun m => m.id)).dedup).length

/-- `pair_qs.filter(Q(user_processed=True)|Q(useless=True)).values("id").count()`. -/
def bulkProcessedCount (db : DB) (aId bId : Nat) : Nat :=
  ((((qs_emails_between db aId bId).filter (fun m => m.userProcessed || m.useless)).map
      (fun m => m.id)).dedup).length

/-- MAX of one nullable column over a message list. -/
def listMaxO (l : List (Option Nat)) : Option Nat :=
  l.foldl omax none

/-- `Greatest(Max("received_at"), Max("sent_at"))` in `flush_to_db`
(PostgreSQL GREATEST ignores NULL operands). -/
def bulkLast (db : DB) (aId bId : Nat) : Option Nat :=
  omax (listMaxO ((qs_emails_between db aId bId).map (fun m => m.receivedAt)))
       (listMaxO ((qs_emails_between db aId bId).map (fun m => m.sentAt)))

/-- The candidate pairs one message contributes in the command's scan loop
(sync_partner_stats.py lines 173-192): skip when from_person is missing,
(from, delivered_to) when distinct, and (from, rid) for each TO recipient
rid ≠ from, all canonicalized. -/
def msgCandidatePairs (db : DB) (m : Msg) : List (Nat × Nat) :=
  if m.fromPerson = 0 then []
  else
    (match m.deliveredTo with
     | some d => if d ≠ m.fromPerson then [canon_pair m.fromPerson d] else []
     | none => []) ++
    ((toIds db m.id).filter (fun rid => decide (rid ≠ m.fromPerson))).map
      (fun rid => canon_pair m.fromPerson rid)

/-- All candidate pairs collected by the scan (the keys of `agg`). -/
def candidatePairs (db : DB) : List (Nat × Nat) :=
  ((baseMessages db).flatMap (msgCandidatePairs db)).dedup

/-- `sync_partner_stats` with default options: delete every PartnerStat row,
collect candidate pairs, recompute each candidate pair exactly via
`qs_emails_between` and upsert it stored as (min, max). -/
def rebuild (db : DB) : DB :=
  let cleared : DB := { db with stats := [] }
  candidatePairs db |>.foldl (fun d p =>
    let row : StatRow :=
      { a := min p.1 p.2
        b := max p.1 p.2
        msgCount := bulkMsgCount db p.1 p.2
        msgProcessedCount := bulkProcessedCount db p.1 p.2
        lastMessageAt := bulkLast db p.1 p.2 }
    { d with stats := upsertStat d.stats row }) cleared

/-! ### Shared lemmas about the two aggregation paths -/

/-- A TO-recipient hit implies the message has some recipient link. -/
theorem toHas_imp_any (db : DB) (mid pid : Nat) (h : toHas db mid pid = true) :
    hasAnyRecipient db mid = true := by
  simp only [toHas, List.any_eq_true, decide_eq_true_eq] at h
  obtain ⟨r, hr, h1, _, _⟩ := h
  simp only [hasAnyRecipient, List.any_eq_true, decide_eq_true_eq]
  exact ⟨r, hr, h1⟩

/-- The incremental condition of `_qualifying_messages_qs` and the `pair_q`
condition of `qs_emails_between` are the same predicate on messages. -/
theorem qualifies_eq_pairQ (db : DB) (aId bId : Nat) (m : Msg) :
    qualifies db aId bId m = pairQ db aId bId m := by
  rw [Bool.eq_iff_iff]
  simp only [qualifies, pairQ, Bool.or_eq_true, Bool.and_eq_true, decide_eq_true_eq]
  tauto

/-- For parties `aId ≠ bId`, a message excluded by the rebuild's base exclusion
(sender = delivered-to, no recipient links) never satisfies `pair_q`. -/
theorem pairQ_of_selfExcluded (db : DB) (aId bId : Nat) (m : Msg) (hab : aId ≠ bId)
    (hex : selfExcluded db m = true) : pairQ db aId bId m = false := by
  simp only [selfExcluded, Bool.and_eq_true, decide_eq_true_eq, Bool.not_eq_true'] at hex
  obtain ⟨hd, hr⟩ := hex
  rw [Bool.eq_false_iff]
  intro hp
  simp only [pairQ, Bool.or_eq_true, Bool.and_eq_true, decide_eq_true_eq] at hp
  rcases hp with ⟨hfa, hdb | htb⟩ | ⟨hfb, hda | hta⟩
  · rw [hd] at hdb
    exact hab (by injection hdb with h; omega)
  · rw [toHas_imp_any db m.id bId htb] at hr
    exact absurd hr (by simp)
  · rw [hd] at hda
    exact hab (by injection hda with h; omega)
  · rw [toHas_imp_any db m.id aId hta] at hr
    exact absurd hr (by simp)

/-- For distinct parties, the rebuild's per-pair queryset is exactly the
incremental path's qualifying queryset. -/
theorem qs_emails_between_eq (db : DB) (aId bId : Nat) (hab : aId ≠ bId) :
    qs_emails_between db aId bId = db.messages.filter (qualifies db aId bId) := by
  unfold qs_emails_between baseMessages
  rw [List.filter_filter]
  apply List.filter_congr
  intro m _
  rcases hex : selfExcluded db m with _ | _
  · simp [hex, qualifies_eq_pairQ]
  · simp [hex, qualifies_eq_pairQ, pairQ_of_selfExcluded db aId bId m hab hex]

/-! ### Concrete scenarios used by the partner-stat claims -/

/-- The empty store. -/
def db0 : DB := { messages := [], recipients := [], stats := [] }

/-- A message from person 1 delivered to person 2 whose received time (5)
is earlier than its sent time (20). -/
def c1m : Msg :=
  { id := 1, fromPerson := 1, deliveredTo := some 2, sentAt := some 20,
    receivedAt := some 5, userProcessed := false, useless := false }

/-- The store after ingesting `c1m` through the signal path. -/
def c1db : DB := createMessage db0 c1m

/-- Scenario A, step 1: create message 1 from person 1 with no delivered-to. -/
def c2s1 : DB :=
  createMessage db0
    { id := 1, fromPerson := 1, deliveredTo := none, sentAt := none,
      receivedAt := none, userProcessed := false, useless := false }

/-- Scenario A, step 2: add the single TO recipient, person 2. -/
def c2s2 : DB := addRecipient c2s1 { messageId := 1, personId := 2, kind := RKind.to }

/-- Scenario A, step 3: delete message 1 (cascade). -/
def c2s3 : DB := deleteMessage c2s2 1

/-- A store containing only the message `c1m` (no stats yet). -/
def c5base : DB := { db0 with messages := [c1m] }

/-- Recompute invoked first with (1,2) and then with the reversed pair (2,1). -/
def c5res : DB :=
  recompute_partner_stats_for_pairs (recompute_partner_stats_for_pairs c5base [(1, 2)]) [(2, 1)]

/-- A self-mail: sender and delivered-to are both person 1, no recipient links. -/
def c6db : DB :=
  createMessage db0
    { id := 1, fromPerson := 1, deliveredTo := some 1, sentAt := none,
      receivedAt := none, userProcessed := false, useless := false }

/-! ### Claims C1, C2, C5, C6 -/

/-- C1, counterexample: on the message set holding only `c1m`
(received 5, sent 20), the incremental path stores last-activity 5
(max of coalesce(received, sent)) while the bulk rebuild stores 20
(greatest of the two column maxima); the message counts agree, so the claim
that the rebuilt row is identical to the incremental row is false. -/
theorem C1_counterexample :
    (statOf c1db 1 2).map StatRow.lastMessageAt = some (some 5) ∧
    (statOf (rebuild c1db) 1 2).map StatRow.lastMessageAt = some (some 20) ∧
    (statOf c1db 1 2).map StatRow.msgCount = (statOf (rebuild c1db) 1 2).map StatRow.msgCount ∧
    some (some 5) ≠ some (some (20 : Nat)) := by
  decide

/-- C1, amended: for every message set and every pair of distinct parties,
the bulk rebuild's per-pair recount (`qs_emails_between`) yields the same
message count and the same processed count as the incremental recompute's
qualifying-message recount; only the last-activity timestamp can differ. -/
theorem C1_amended (db : DB) (aId bId : Nat) (hab : aId ≠ bId) :
    bulkMsgCount db aId bId = aggMsgCount db aId bId ∧
    bulkProcessedCount db aId bId = aggProcessedCount db aId bId := by
  constructor
  · unfold bulkMsgCount aggMsgCount
    rw [qs_emails_between_eq db aId bId hab]
  · unfold bulkProcessedCount aggProcessedCount
    rw [qs_emails_between_eq db aId bId hab, List.filter_filter]
    congr 1
    apply congrArg
    apply congrArg
    apply List.filter_congr
    intro m _
    rw [Bool.and_comm]

/-- C1, witness for the amended theorem at the concrete store `c1db`. -/
theorem C1_amended_witness :
    bulkMsgCount c1db 1 2 = aggMsgCount c1db 1 2 ∧
    bulkProcessedCount c1db 1 2 = aggProcessedCount c1db 1 2 :=
  C1_amended c1db 1 2 (by decide)

/-- C2: creating message 1 (sender person 1, single TO recipient person 2)
stores msg_count 1 as the claim states, but after the cascade delete of the
message the PartnerStat row for (1,2) still has msg_count 1, not 0: the
recipient rows are removed from the store before the post-delete handlers
query them, so no pair is recomputed. -/
theorem C2_code_evaluation :
    (statOf c2s2 1 2).map StatRow.msgCount = some 1 ∧
    c2s3.messages = [] ∧ c2s3.recipients = [] ∧
    (statOf c2s3 1 2).map StatRow.msgCount = some 1 := by
  decide

/-- C5, counterexample: invoking the recompute operation with (1,2) and then
with (2,1) leaves two PartnerStat rows for the same unordered pair, and the
row keyed (2,1) is stored with the larger identifier first. -/
theorem C5_counterexample :
    (c5res.stats.filter (fun r =>
        decide ((r.a = 1 ∧ r.b = 2) ∨ (r.a = 2 ∧ r.b = 1)))).length = 2 ∧
    statOf c5res 2 1 =
      some { a := 2, b := 1, msgCount := 1, msgProcessedCount := 0, lastMessageAt := some 5 } ∧
    ¬ (2 : Nat) < 1 := by
  decide

/-- C5, amended: `recompute_partner_stats_for_pairs` stores the row under the
ordered pair exactly as invoked; the stored rows for (A,B) and (B,A) coincide
only because every caller first canonicalizes through `_canon_pair`: invoking
the recompute with the canonicalized pair of (A,B) and of (B,A) yields one
identical store, and for distinct parties the canonical key has the smaller
identifier first. -/
theorem C5_amended (db : DB) (A B : Nat) :
    recompute_partner_stats_for_pairs db [canon_pair A B] =
      recompute_partner_stats_for_pairs db [canon_pair B A] ∧
    (A ≠ B → (canon_pair A B).1 < (canon_pair A B).2) := by
  have hcomm : canon_pair A B = canon_pair B A := by
    unfold canon_pair
    rcases lt_trichotomy A B with h | h | h
    · rw [if_pos h, if_neg (by omega)]
    · subst h
      rfl
    · rw [if_neg (by omega), if_pos h]
  constructor
  · rw [hcomm]
  · intro hab
    unfold canon_pair
    rcases lt_or_gt_of_ne hab with h | h
    · simp [h]
    · rw [if_neg (by omega)]
      simpa using h

/-- C5, witness for the amended theorem at pair (3,1) over `c5base`. -/
theorem C5_amended_witness :
    recompute_partner_stats_for_pairs c5base [canon_pair 3 1] =
      recompute_partner_stats_for_pairs c5base [canon_pair 1 3] ∧
    (canon_pair 3 1).1 < (canon_pair 3 1).2 :=
  ⟨(C5_amended c5base 3 1).1, (C5_amended c5base 3 1).2 (by decide)⟩

/-- C6: a self-mail (sender = delivered-to = person 1, no recipients) is NOT
excluded by the incremental path: the signal handlers create a PartnerStat
row (1,1) counting it, while the bulk rebuild excludes the message and stores
no row at all - contradicting the model's own a < b storage convention. -/
theorem C6_code_evaluation :
    statOf c6db 1 1 =
      some { a := 1, b := 1, msgCount := 1, msgProcessedCount := 0, lastMessageAt := none } ∧
    (rebuild c6db).stats = [] := by
  decide

/-! ### Thread resolution (ingestion/management/commands/assign_threads.py)

Strings are embedded as `List Char`.  Python's `str.lower()` is embedded
char-wise via `Char.toLower`, which is exact for the ASCII alphabets the
subject prefixes and header tokens use. -/

/-- Python whitespace (the default `str.strip` / `str.split` class and the
regex `\s` class for ASCII): space, tab, newline, carriage return,
vertical tab, form feed. -/
def isPyWS (c : Char) : Bool :=
  c = ' ' || c = '\t' || c = '\n' || c = '\r' || c = '\x0b' || c = '\x0c'

/-- `str.rstrip()` of whitespace. -/
def rstripWS (s : List Char) : List Char :=
  (s.reverse.dropWhile isPyWS).reverse

/-- `str.strip()` of whitespace. -/
def pyStrip (s : List Char) : List Char :=
  rstripWS (s.dropWhile isPyWS)

/-- `_SUBJECT_PREFIXES` (assign_threads.py line 15), in source order. -/
def subjPfxList : List (List Char) :=
  ["re:", "fw:", "fwd:", "odp:", "od:", "sv:", "aw:", "wg:", "ref:"].map String.toList

/-- The prefix scan of one pass of the `normalize_subject` loop: the length of
the first matching entry of `_SUBJECT_PREFIXES` against the lowercased subject. -/
def matchPfx (sLow : List Char) : Option Nat :=
  subjPfxList.findSome? (fun p => if p.isPrefixOf sLow then some p.length else none)

/-- The character class of `lstrip(" \t-:[]")` (assign_threads.py line 32). -/
def lstripPfxSet : List Char := [' ', '\t', '-', ':', '[', ']']

/-- `s[len(p):].lstrip(" \t-:[]")`'s left strip. -/
def lstripPfx (s : List Char) : List Char :=
  s.dropWhile (fun c => decide (c ∈ lstripPfxSet))

/-- One iteration of the `while changed and s_low` loop of `normalize_subject`:
`none` when the loop exits (empty string or no prefix matched), otherwise the
string after cutting the matched prefix and left-stripping. -/
def stripStep (s : List Char) : Option (List Char) :=
  if s = [] then none
  else
    match matchPfx (s.map Char.toLower) with
    | some n => some (lstripPfx (s.drop n))
    | none => none

/-- The loop of `normalize_subject`, with explicit fuel; `normLoopF_add` below
shows any fuel of at least the string length computes the loop's fixpoint,
which is the embedding's termination argument. -/
def normLoopF : Nat → List Char → List Char
  | 0, s => s
  | fuel + 1, s =>
    match stripStep s with
    | some s2 => normLoopF fuel s2
    | none => s

/-- The `normalize_subject` loop run to completion. -/
def normRun (s : List Char) : List Char :=
  normLoopF s.length s

/-- `normalize_subject` (assign_threads.py line 20). -/
def normalize_subject (subject : List Char) : List Char :=
  if subject = [] then [] else normRun (pyStrip subject)

/-- The bracket scanner of `re.findall(r"<([^>]+)>", ref_header)`: `acc = some l`
while inside an unclosed `<`, collecting the (reversed) content. -/
def angleLoop : List Char → Option (List Char) → List (List Char)
  | [], _ => []
  | c :: rest, none =>
    if c = '<' then angleLoop rest (some []) else angleLoop rest none
  | c :: rest, some acc =>
    if c = '>' then
      (if acc = [] then [] else [acc.reverse]) ++ angleLoop rest none
    else
      angleLoop rest (some (c :: acc))

/-- `str.split()` on whitespace runs, dropping empty tokens. -/
def splitWSGo : List Char → List Char → List (List Char)
  | [], acc => if acc = [] then [] else [acc.reverse]
  | c :: rest, acc =>
    if isPyWS c then
      if acc = [] then splitWSGo rest [] else acc.reverse :: splitWSGo rest []
    else
      splitWSGo rest (c :: acc)

/-- `str.strip(cs)` for an explicit character class. -/
def stripBoth (cs : List Char) (s : List Char) : List Char :=
  ((s.dropWhile (fun c => decide (c ∈ cs))).reverse.dropWhile
      (fun c => decide (c ∈ cs))).reverse

/-- `extract_references` (assign_threads.py line 39): angle-bracket tokens if
any bracket match exists, otherwise whitespace tokens stripped of `<> ,;\t`. -/
def extract_references (h : List Char) : List (List Char) :=
  if h = [] then []
  else
    let inB := angleLoop h none
    if inB ≠ [] then
      (inB.map pyStrip).filter (fun t => decide (t ≠ []))
    else
      ((splitWSGo h []).map (stripBoth ['<', '>', ' ', ',', ';', '\t'])).filter
        (fun t => decide (t ≠ []))

/-- The `\w` class of `django.utils.text.slugify` after its ASCII fold. -/
def isWordChar (c : Char) : Bool :=
  c.isAlphanum || c = '_'

/-- The `re.sub(r"[-\s]+", "-", …)` pass of slugify: collapse every run of
hyphens/whitespace to one hyphen (`inRun` marks being inside such a run). -/
def collapseDashGo : List Char → Bool → List Char
  | [], _ => []
  | c :: rest, inRun =>
    if isPyWS c || c = '-' then
      (if inRun then [] else ['-']) ++ collapseDashGo rest true
    else
      c :: collapseDashGo rest false

/-- `django.utils.text.slugify` for ASCII input (the NFKD/ASCII fold is the
identity there): lowercase, drop characters outside `[\w\s-]`, collapse
`[-\s]+` runs to `-`, strip `-_` from both ends. -/
def slugify (s : List Char) : List Char :=
  let kept := (s.map Char.toLower).filter (fun c => isWordChar c || isPyWS c || decide (c = '-'))
  stripBoth ['-', '_'] (collapseDashGo kept false)

/-- One Thread row (id, thread_key, subject_norm). -/
structure ThreadRow where
  id : Nat
  thread_key : List Char
  subject_norm : List Char
deriving DecidableEq, Repr

/-- The EmailMessage fields the thread resolver reads; a blank header is `[]`. -/
structure TMsg where
  id : Nat
  threadId : Option Nat
  subject : List Char
  message_id_header : List Char
  in_reply_to_header : List Char
  references_header : List Char
  external_message_id : List Char
  receivedAt : Option Nat
deriving DecidableEq, Repr

/-- The store slice the resolver touches, plus a counter of message saves
(`msg.save(update_fields=["thread"])`). -/
structure TState where
  msgs : List TMsg
  threads : List ThreadRow
  nextThreadId : Nat
  msgWrites : Nat
deriving DecidableEq, Repr

/-- Whether `x` sorts strictly before `y` under the EmailMessage default
ordering `-received_at` (descending, NULLs first as on PostgreSQL). -/
def recvAfter (x y : Option Nat) : Bool :=
  match x, y with
  | none, none => false
  | none, some _ => true
  | some _, none => false
  | some a, some b => decide (b < a)

/-- `queryset.first()` under the default `-received_at` ordering
(ties keep the earlier-listed row). -/
def firstByRecvDesc (l : List TMsg) : Option TMsg :=
  l.foldl (fun acc m =>
    match acc with
    | none => some m
    | some cur => if recvAfter m.receivedAt cur.receivedAt then some m else acc) none

/-- One step of the fold computing the id-maximal row. -/
def maxByIdStep (acc : Option TMsg) (m : TMsg) : Option TMsg :=
  match acc with
  | none => some m
  | some cur => if cur.id < m.id then some m else acc

/-- `order_by("-id").first()` (ties keep the earlier-listed row). -/
def maxByIdDesc (l : List TMsg) : Option TMsg :=
  l.foldl maxByIdStep none

/-- Step 1 of `find_parent_thread`: the In-Reply-To lookup.  The first match
under the default ordering is taken; when it has no thread the step yields
nothing (`if parent and parent.thread`). -/
def via_in_reply_to (st : TState) (m : TMsg) : Option Nat :=
  if m.in_reply_to_header ≠ [] then
    match firstByRecvDesc (st.msgs.filter
        (fun x => decide (x.message_id_header = m.in_reply_to_header))) with
    | some parent => parent.threadId
    | none => none
  else none

/-- Step 2 of `find_parent_thread`: the References candidates restricted to
threaded messages, most recent id first. -/
def via_references (st : TState) (m : TMsg) : Option Nat :=
  if m.references_header ≠ [] then
    if extract_references m.references_header ≠ [] then
      match maxByIdDesc (st.msgs.filter (fun x =>
          decide (x.message_id_header ∈ extract_references m.references_header) &&
            x.threadId.isSome)) with
      | some parent => parent.threadId
      | none => none
    else none
  else none

/-- `find_parent_thread` (assign_threads.py line 49). -/
def find_parent_thread (st : TState) (m : TMsg) : Option Nat :=
  match via_in_reply_to st m with
  | some t => some t
  | none => via_references st m

/-- `Thread.objects.get_or_create(thread_key=…, defaults={"subject_norm": …})`. -/
def getOrCreateThread (st : TState) (key : List Char) (defSubjNorm : List Char) :
    TState × Nat :=
  match st.threads.find? (fun t => decide (t.thread_key = key)) with
  | some t => (st, t.id)
  | none =>
    let tid := st.nextThreadId
    ({ st with
        threads := st.threads ++ [{ id := tid, thread_key := key, subject_norm := defSubjNorm }]
        nextThreadId := tid + 1 }, tid)

/-- Decimal rendering of `msg.pk` for the final `msgid:` key. -/
def natChars (n : Nat) : List Char :=
  (toString n).toList

/-- `get_or_create_subject_thread` (assign_threads.py line 79): subject slug
key when the normalized subject is non-empty, otherwise a `msgid:` key from
the first non-blank of message-id header, external id, pk - updating the
found thread's blank subject_norm from the raw subject in that branch. -/
def get_or_create_subject_thread (st : TState) (m : TMsg) : TState × Nat :=
  let subjNorm := normalize_subject m.subject
  if subjNorm ≠ [] then
    getOrCreateThread st ("subj:".toList ++ (slugify subjNorm).take 200) (subjNorm.take 500)
  else
    let key := "msgid:".toList ++
      (if m.message_id_header ≠ [] then m.message_id_header
       else if m.external_message_id ≠ [] then m.external_message_id
       else natChars m.id)
    let res := getOrCreateThread st key []
    let st2 :=
      match res.1.threads.find? (fun t => decide (t.id = res.2)) with
      | some t =>
        if t.subject_norm = [] ∧ m.subject ≠ [] then
          { res.1 with
              threads := res.1.threads.map (fun x =>
                if x.id = res.2 then
                  { x with subject_norm := (normalize_subject m.subject).take 500 }
                else x) }
        else res.1
      | none => res.1
    (st2, res.2)

/-- `msg.thread = …; msg.save(update_fields=["thread"])`. -/
def writeThread (st : TState) (mid tid : Nat) : TState :=
  { st with
      msgs := st.msgs.map (fun x => if x.id = mid then { x with threadId := some tid } else x)
      msgWrites := st.msgWrites + 1 }

/-- `assign_thread_for_message` (assign_threads.py line 98).  The
`allow_subject_fallback` flag is omitted: the source runs
`get_or_create_subject_thread` in both of its branches. -/
def assign_thread_for_message (st : TState) (mid : Nat) : TState × Option Nat :=
  match st.msgs.find? (fun x => decide (x.id = mid)) with
  | none => (st, none)
  | some m =>
    match m.threadId with
    | some t => (st, some t)
    | none =>
      match find_parent_thread st m with
      | some t => (writeThread st mid t, some t)
      | none =>
        let res := get_or_create_subject_thread st m
        (writeThread res.1 mid res.2, some res.2)

/-! ### Lemmas on the normalize_subject loop -/

/-- A successful scan of `_SUBJECT_PREFIXES` names a list entry that is a
prefix of the scanned string. -/
theorem matchPfx_some (sLow : List Char) (n : Nat) (h : matchPfx sLow = some n) :
    3 ≤ n ∧ n ≤ sLow.length := by
  have hgen : ∀ ps : List (List Char),
      (ps.findSome? (fun p => if p.isPrefixOf sLow then some p.length else none)) = some n →
      ∃ p, p ∈ ps ∧ p.isPrefixOf sLow = true ∧ n = p.length := by
    intro ps
    induction ps with
    | nil => intro h2; simp at h2
    | cons q qs ih =>
      intro h2
      rw [List.findSome?_cons] at h2
      rcases hq : q.isPrefixOf sLow with _ | _
      · rw [hq] at h2
        simp only [Bool.false_eq_true, if_false] at h2
        obtain ⟨p, hp, h3, h4⟩ := ih h2
        exact ⟨p, List.mem_cons_of_mem q hp, h3, h4⟩
      · rw [hq] at h2
        simp only [if_true] at h2
        injection h2 with h2
        exact ⟨q, List.mem_cons_self q qs, hq, h2.symm⟩
  obtain ⟨p, hp, hpre, hn⟩ := hgen subjPfxList h
  have h3 : 3 ≤ p.length := by
    have hall : ∀ q ∈ subjPfxList, 3 ≤ q.length := by decide
    exact hall p hp
  have hle : p.length ≤ sLow.length := (List.isPrefixOf_iff_prefix.mp hpre).length_le
  omega

/-- Each continuing iteration of the subject loop removes at least the three
characters of the matched prefix (before any extra left-stripping). -/
theorem stripStep_some_length (s s2 : List Char) (h : stripStep s = some s2) :
    s2.length + 3 ≤ s.length := by
  unfold stripStep at h
  by_cases hs : s = []
  · rw [if_pos hs] at h
    exact absurd h (by simp)
  · rw [if_neg hs] at h
    rcases hm : matchPfx (s.map Char.toLower) with _ | n
    · rw [hm] at h
      exact absurd h (by simp)
    · rw [hm] at h
      injection h with h
      obtain ⟨h3, h4⟩ := matchPfx_some _ n hm
      rw [List.length_map] at h4
      have h5 : (lstripPfx (s.drop n)).length ≤ (s.drop n).length := by
        unfold lstripPfx
        exact (List.dropWhile_suffix _).length_le
      rw [List.length_drop] at h5
      rw [← h]
      omega

/-- The loop result on the empty string, at any fuel. -/
theorem normLoopF_nil (f : Nat) : normLoopF f [] = [] := by
  cases f with
  | zero => rfl
  | succ f => simp [normLoopF, stripStep]

/-- Any fuel of at least the string length computes the loop's fixpoint. -/
theorem normLoopF_add (f k : Nat) (s : List Char) (h : s.length ≤ f) :
    normLoopF (f + k) s = normLoopF f s := by
  induction f generalizing s k with
  | zero =>
    have hnil : s = [] := List.length_eq_zero.mp (by omega)
    subst hnil
    rw [normLoopF_nil, normLoopF_nil]
  | succ f ih =>
    have hfk : f + 1 + k = (f + k) + 1 := by omega
    rw [hfk]
    rcases hst : stripStep s with _ | s2
    · simp [normLoopF, hst]
    · simp only [normLoopF, hst]
      have hdec := stripStep_some_length s s2 hst
      exact ih k s2 (by omega)

/-- The unfolding equation of the completed loop. -/
theorem normRun_step (s : List Char) :
    normRun s = match stripStep s with | some s2 => normRun s2 | none => s := by
  rcases hst : stripStep s with _ | s2
  · rcases s with _ | ⟨c, rest⟩
    · rfl
    · simp [normRun, normLoopF, hst]
  · unfold normRun
    have hdec := stripStep_some_length s s2 hst
    obtain ⟨L, hL⟩ : ∃ L, s.length = L + 1 := ⟨s.length - 1, by omega⟩
    rw [hL]
    simp only [normLoopF, hst]
    obtain ⟨k, hk⟩ : ∃ k, L = s2.length + k := ⟨L - s2.length, by omega⟩
    rw [hk, normLoopF_add s2.length k s2 (le_refl _)]

/-! ### Claim C10 -/

/-- C10: the subject-prefix-stripping loop of `normalize_subject` terminates:
every iteration that continues (`stripStep` returning a next state) removes a
matched prefix of length at least 3, so the string length strictly decreases
and is a well-founded termination measure (used as the fuel bound of the
embedding via `normLoopF_add`). -/
theorem C10_stripStep_decreases (s s2 : List Char) (h : stripStep s = some s2) :
    s2.length + 3 ≤ s.length ∧ s2.length < s.length := by
  have h2 := stripStep_some_length s s2 h
  exact ⟨h2, by omega⟩

/-- C10, witness: one concrete continuing iteration. -/
theorem C10_witness :
    stripStep ("re: x".toList) = some ("x".toList) ∧
    ("x".toList).length + 3 ≤ ("re: x".toList).length ∧
    ("x".toList).length < ("re: x".toList).length := by
  refine ⟨by decide, ?_, ?_⟩
  · exact (C10_stripStep_decreases ("re: x".toList) ("x".toList) (by decide)).1
  · exact (C10_stripStep_decreases ("re: x".toList) ("x".toList) (by decide)).2

/-! ### Stability of normalize_subject under repeated "Re: " -/

/-- The characters of the literal reply marker "Re: ". -/
def reTok : List Char := ['R', 'e', ':', ' ']

/-- The strip class of the loop does not touch a leading R. -/
theorem lstripPfx_R (u : List Char) : lstripPfx ('R' :: u) = 'R' :: u := by
  unfold lstripPfx
  rw [List.dropWhile_cons, if_neg (by decide)]

/-- The strip class of the loop does not touch a string starting with "Re: ". -/
theorem lstripPfx_reTok (t : List Char) : lstripPfx (reTok ++ t) = reTok ++ t := by
  show lstripPfx ('R' :: (['e', ':', ' '] ++ t)) = reTok ++ t
  rw [lstripPfx_R]
  rfl

/-- One loop iteration on a string starting with "Re: " cuts the marker and
left-strips the rest. -/
theorem stripStep_reTok (u : List Char) : stripStep (reTok ++ u) = some (lstripPfx u) := by
  have hne : reTok ++ u ≠ [] := by simp [reTok]
  unfold stripStep
  rw [if_neg hne]
  have hmap : (reTok ++ u).map Char.toLower = ['r', 'e', ':', ' '] ++ u.map Char.toLower := by
    rw [List.map_append]
    congr 1
  rw [hmap]
  have hm : matchPfx (['r', 'e', ':', ' '] ++ u.map Char.toLower) = some 3 := by
    have hsubj : subjPfxList = ['r', 'e', ':'] :: subjPfxList.tail := by decide
    rw [matchPfx, hsubj, List.findSome?_cons]
    have hpre : (['r', 'e', ':'] : List Char).isPrefixOf
        (['r', 'e', ':', ' '] ++ u.map Char.toLower) = true := by
      simp [List.isPrefixOf]
    rw [hpre]
    simp
  rw [hm]
  show some (lstripPfx ((reTok ++ u).drop 3)) = some (lstripPfx u)
  have hdrop : (reTok ++ u).drop 3 = ' ' :: u := by simp [reTok]
  rw [hdrop]
  have hsp : lstripPfx (' ' :: u) = lstripPfx u := by
    unfold lstripPfx
    rw [List.dropWhile_cons, if_pos (by decide)]
  rw [hsp]

/-- Right strip across a prepended "Re: ". -/
theorem rstripWS_reTok (s : List Char) :
    rstripWS (reTok ++ s) =
      if rstripWS s = [] then ['R', 'e', ':'] else reTok ++ rstripWS s := by
  unfold rstripWS
  rw [List.reverse_append, List.dropWhile_append]
  by_cases h : (s.reverse.dropWhile isPyWS).isEmpty
  · rw [if_pos h]
    rw [List.isEmpty_iff] at h
    rw [if_pos (by rw [h]; rfl)]
    decide
  · rw [if_neg h]
    rw [List.isEmpty_iff] at h
    rw [if_neg (by simp [h])]
    rw [List.reverse_append, List.reverse_reverse]

/-- Full strip across a prepended "Re: ". -/
theorem pyStrip_reTok (s : List Char) :
    pyStrip (reTok ++ s) =
      if rstripWS s = [] then ['R', 'e', ':'] else reTok ++ rstripWS s := by
  unfold pyStrip
  have hdrop : (reTok ++ s).dropWhile isPyWS = reTok ++ s := by
    have h : isPyWS 'R' = false := by decide
    rw [show reTok ++ s = 'R' :: (['e', ':', ' '] ++ s) from rfl, List.dropWhile_cons, h]
    simp
  rw [hdrop, rstripWS_reTok]

/-- The completed loop across a prepended "Re: ". -/
theorem normRun_reTok (u : List Char) : normRun (reTok ++ u) = normRun (lstripPfx u) := by
  have h := normRun_step (reTok ++ u)
  rw [stripStep_reTok] at h
  exact h

/-- The completed loop across a doubled "Re: Re: ". -/
theorem normRun_reTok_reTok (t : List Char) :
    normRun (reTok ++ (reTok ++ t)) = normRun (reTok ++ t) := by
  rw [normRun_reTok, lstripPfx_reTok]

/-- A second "Re: " marker never changes the normalized subject. -/
theorem normalize_re_re (s : List Char) :
    normalize_subject (reTok ++ (reTok ++ s)) = normalize_subject (reTok ++ s) := by
  unfold normalize_subject
  rw [if_neg (show reTok ++ (reTok ++ s) ≠ [] by simp [reTok]),
      if_neg (show reTok ++ s ≠ [] by simp [reTok])]
  have hc : rstripWS (reTok ++ s) ≠ [] := by
    rw [rstripWS_reTok]
    by_cases h : rstripWS s = []
    · rw [if_pos h]
      simp
    · rw [if_neg h]
      simp [reTok]
  rw [pyStrip_reTok (reTok ++ s), if_neg hc, rstripWS_reTok, pyStrip_reTok]
  by_cases h : rstripWS s = []
  · rw [if_pos h, normRun_reTok, lstripPfx_R]
  · rw [if_neg h]
    exact normRun_reTok_reTok (rstripWS s)

/-- n stacked "Re: " markers. -/
def repRe : Nat → List Char
  | 0 => []
  | n + 1 => reTok ++ repRe n

/-! ### Claim C9 -/

/-- C9, counterexample: prepending a single "Re: " to the subject "-hello"
changes the normalized subject - the `lstrip(" \t-:[]")` applied after a
prefix cut removes the leading dash that an unprefixed subject keeps - so
normalization is not stable under adding reply markers to arbitrary subjects. -/
theorem C9_counterexample :
    normalize_subject ("Re: -hello".toList) = "hello".toList ∧
    normalize_subject ("-hello".toList) = "-hello".toList ∧
    "hello".toList ≠ "-hello".toList := by
  decide

/-- C9, amended: "Re: Re: Budget Q3" normalizes to "Budget Q3", and the
normalized subject (hence the subject thread key) is stable across repeated
"Re: " markers once at least one marker is present: any n+1 stacked markers
normalize identically to a single one. -/
theorem C9_amended :
    reTok = "Re: ".toList ∧
    normalize_subject ("Re: Re: Budget Q3".toList) = "Budget Q3".toList ∧
    ∀ (s : List Char) (n : Nat),
      normalize_subject (repRe (n + 1) ++ s) = normalize_subject (reTok ++ s) := by
  refine ⟨by decide, by decide, ?_⟩
  intro s n
  induction n with
  | zero => simp [repRe]
  | succ n ih =>
    have h1 : repRe (n + 1 + 1) ++ s = reTok ++ (reTok ++ (repRe n ++ s)) := by
      show (reTok ++ (reTok ++ repRe n)) ++ s = _
      simp [List.append_assoc]
    have h2 : reTok ++ (repRe n ++ s) = repRe (n + 1) ++ s := by
      show _ = (reTok ++ repRe n) ++ s
      simp [List.append_assoc]
    rw [h1, normalize_re_re, h2, ih]

/-! ### Lemmas on thread assignment -/

/-- Setting the thread of message `mid` preserves the find-by-id result,
updating only its thread field. -/
theorem find?_writeThread (l : List TMsg) (mid tid : Nat) (m : TMsg)
    (h : l.find? (fun x => decide (x.id = mid)) = some m) :
    (l.map (fun x => if x.id = mid then { x with threadId := some tid } else x)).find?
        (fun x => decide (x.id = mid)) = some { m with threadId := some tid } := by
  induction l with
  | nil => simp at h
  | cons a l ih =>
    by_cases ha : a.id = mid
    · rw [List.find?_cons_of_pos _ (by simpa using ha)] at h
      injection h with h
      subst h
      rw [List.map_cons, if_pos ha]
      exact List.find?_cons_of_pos _ (by simpa using ha)
    · rw [List.find?_cons_of_neg _ (by simpa using ha)] at h
      rw [List.map_cons, if_neg ha, List.find?_cons_of_neg _ (by simpa using ha)]
      exact ih h

/-- `get_or_create_subject_thread` touches only the Thread table. -/
theorem gocst_msgs (st : TState) (m : TMsg) :
    (get_or_create_subject_thread st m).1.msgs = st.msgs := by
  unfold get_or_create_subject_thread getOrCreateThread
  dsimp only
  repeat' first
  | rfl
  | split

/-! ### Claim C7 -/

/-- C7: thread assignment is idempotent: a message that already has a thread
is returned unchanged with no state change at all (hence no write), and a
second invocation on the same message returns the same thread with the state
(including the save counter) untouched. -/
theorem C7_idempotent (st : TState) (mid : Nat) (m : TMsg)
    (hm : st.msgs.find? (fun x => decide (x.id = mid)) = some m) :
    (∀ t, m.threadId = some t → assign_thread_for_message st mid = (st, some t)) ∧
    assign_thread_for_message (assign_thread_for_message st mid).1 mid =
      ((assign_thread_for_message st mid).1, (assign_thread_for_message st mid).2) := by
  have hfirst : ∀ t, m.threadId = some t → assign_thread_for_message st mid = (st, some t) := by
    intro t ht
    simp only [assign_thread_for_message, hm, ht]
  refine ⟨hfirst, ?_⟩
  rcases hth : m.threadId with _ | t
  · rcases hfp : find_parent_thread st m with _ | t
    · have h1 : assign_thread_for_message st mid =
          (writeThread (get_or_create_subject_thread st m).1 mid
              (get_or_create_subject_thread st m).2,
            some (get_or_create_subject_thread st m).2) := by
        simp only [assign_thread_for_message, hm, hth, hfp]
      have h2 : (writeThread (get_or_create_subject_thread st m).1 mid
            (get_or_create_subject_thread st m).2).msgs.find?
              (fun x => decide (x.id = mid)) =
          some { m with threadId := some (get_or_create_subject_thread st m).2 } := by
        show ((get_or_create_subject_thread st m).1.msgs.map _).find? _ = _
        apply find?_writeThread
        rw [gocst_msgs]
        exact hm
      rw [h1]
      show assign_thread_for_message
          (writeThread (get_or_create_subject_thread st m).1 mid
            (get_or_create_subject_thread st m).2) mid =
        (writeThread (get_or_create_subject_thread st m).1 mid
            (get_or_create_subject_thread st m).2,
          some (get_or_create_subject_thread st m).2)
      simp only [assign_thread_for_message, h2]
    · have h1 : assign_thread_for_message st mid = (writeThread st mid t, some t) := by
        simp only [assign_thread_for_message, hm, hth, hfp]
      have h2 : (writeThread st mid t).msgs.find? (fun x => decide (x.id = mid)) =
          some { m with threadId := some t } := by
        show (st.msgs.map _).find? _ = _
        exact find?_writeThread st.msgs mid t m hm
      rw [h1]
      show assign_thread_for_message (writeThread st mid t) mid = (writeThread st mid t, some t)
      simp only [assign_thread_for_message, h2]
  · rw [hfirst t hth]
    show assign_thread_for_message st mid = (st, some t)
    exact hfirst t hth

/-- A stored message that already belongs to thread 5. -/
def w7m : TMsg :=
  { id := 1, threadId := some 5, subject := [], message_id_header := [],
    in_reply_to_header := [], references_header := [], external_message_id := [],
    receivedAt := none }

/-- A store holding `w7m` and its thread. -/
def w7st : TState :=
  { msgs := [w7m]
    threads := [{ id := 5, thread_key := "k".toList, subject_norm := [] }]
    nextThreadId := 6
    msgWrites := 0 }

/-- C7, witness: both idempotence parts at the concrete store `w7st`. -/
theorem C7_idempotent_witness :
    assign_thread_for_message w7st 1 = (w7st, some 5) ∧
    assign_thread_for_message (assign_thread_for_message w7st 1).1 1 =
      ((assign_thread_for_message w7st 1).1, (assign_thread_for_message w7st 1).2) := by
  have h := C7_idempotent w7st 1 w7m (by decide)
  exact ⟨h.1 5 (by decide), h.2⟩

/-! ### Claim C8 -/

/-- If `p` is in the list and strictly id-maximal among its members, the
`order_by("-id").first()` fold selects `p`. -/
theorem maxByIdDesc_eq (l : List TMsg) (p : TMsg) (hp : p ∈ l)
    (hmax : ∀ q ∈ l, q = p ∨ q.id < p.id) : maxByIdDesc l = some p := by
  suffices haux : ∀ (xs : List TMsg) (a : TMsg), (a = p ∨ a.id < p.id) → (p ∈ xs ∨ a = p) →
      (∀ q ∈ xs, q = p ∨ q.id < p.id) → xs.foldl maxByIdStep (some a) = some p by
    rcases l with _ | ⟨x, xs⟩
    · simp at hp
    · unfold maxByIdDesc
      rw [List.foldl_cons]
      show xs.foldl maxByIdStep (some x) = some p
      apply haux xs x (hmax x (by simp))
      · rcases List.mem_cons.mp hp with h | h
        · right
          exact h.symm
        · left
          exact h
      · intro q hq
        exact hmax q (List.mem_cons_of_mem x hq)
  intro xs
  induction xs with
  | nil =>
    intro a _ hmem _
    rcases hmem with h | h
    · simp at h
    · simp [h]
  | cons x xs ih =>
    intro a ha hmem hall
    rw [List.foldl_cons]
    have hx := hall x (by simp)
    by_cases hlt : a.id < x.id
    · rw [show maxByIdStep (some a) x = some x by simp [maxByIdStep, hlt]]
      apply ih x hx
      · rcases hx with h | h
        · right
          exact h
        · rcases hmem with hm | hm
          · rcases List.mem_cons.mp hm with h2 | h2
            · right
              exact h2.symm
            · left
              exact h2
          · exfalso
            rw [hm] at hlt
            omega
      · intro q hq
        exact hall q (List.mem_cons_of_mem x hq)
    · rw [show maxByIdStep (some a) x = some a by simp [maxByIdStep, hlt]]
      apply ih a ha
      · rcases hmem with hm | hm
        · rcases List.mem_cons.mp hm with h2 | h2
          · rcases ha with h3 | h3
            · right
              exact h3
            · exfalso
              rw [h2] at h3
              omega
          · left
            exact h2
        · right
          exact hm
      · intro q hq
        exact hall q (List.mem_cons_of_mem x hq)

/-- C8, counterexample: message 3 is a reply (in-reply-to "x") and an existing
message with message-id "x" belongs to thread 7, yet assignment creates a
fresh subject thread (id 100): the In-Reply-To rule takes only the first
match under the default ordering - here message 1, received later but without
a thread - and then falls through past the threaded duplicate. -/
def c8st : TState :=
  { msgs :=
      [ { id := 1, threadId := none, subject := "a".toList, message_id_header := "x".toList,
          in_reply_to_header := [], references_header := [], external_message_id := [],
          receivedAt := some 10 },
        { id := 2, threadId := some 7, subject := "a".toList, message_id_header := "x".toList,
          in_reply_to_header := [], references_header := [], external_message_id := [],
          receivedAt := some 5 },
        { id := 3, threadId := none, subject := "s".toList, message_id_header := "m3".toList,
          in_reply_to_header := "x".toList, references_header := [], external_message_id := [],
          receivedAt := some 20 } ]
    threads := [{ id := 7, thread_key := "k7".toList, subject_norm := [] }]
    nextThreadId := 100
    msgWrites := 0 }

/-- C8, counterexample (see `c8st`): an existing message with the matching
message-id belongs to thread 7, but the reply is assigned fresh thread 100. -/
theorem C8_counterexample :
    (c8st.msgs.filter (fun x =>
        decide (x.message_id_header = "x".toList ∧ x.threadId = some 7))).length = 1 ∧
    (assign_thread_for_message c8st 3).2 = some 100 ∧
    (100 : Nat) ≠ 7 := by
  decide

/-- C8, amended: the In-Reply-To rule inherits thread T only when the first
match under the store's default ordering has a thread - in particular whenever
the matching message is unique and belongs to T; when only the references
list yields candidates, among the candidates with a matching message-id
header and a thread the most recently ingested (largest id) match's thread
is chosen. -/
theorem C8_amended (st : TState) (m p : TMsg) (t : Nat)
    (hm : st.msgs.find? (fun x => decide (x.id = m.id)) = some m)
    (hnt : m.threadId = none) :
    (m.in_reply_to_header ≠ [] →
      st.msgs.filter (fun x => decide (x.message_id_header = m.in_reply_to_header)) = [p] →
      p.threadId = some t →
      (assign_thread_for_message st m.id).2 = some t) ∧
    (m.in_reply_to_header = [] →
      m.references_header ≠ [] →
      extract_references m.references_header ≠ [] →
      p ∈ st.msgs.filter (fun x =>
        decide (x.message_id_header ∈ extract_references m.references_header) &&
          x.threadId.isSome) →
      (∀ q ∈ st.msgs.filter (fun x =>
          decide (x.message_id_header ∈ extract_references m.references_header) &&
            x.threadId.isSome), q = p ∨ q.id < p.id) →
      p.threadId = some t →
      (assign_thread_for_message st m.id).2 = some t) := by
  constructor
  · intro h1 h2 h3
    have hv : via_in_reply_to st m = some t := by
      unfold via_in_reply_to
      rw [if_pos h1, h2]
      show p.threadId = some t
      exact h3
    have hfp : find_parent_thread st m = some t := by
      unfold find_parent_thread
      rw [hv]
    simp only [assign_thread_for_message, hm, hnt, hfp]
  · intro h1 h2 h3 hmem hmax h4
    have hv : via_in_reply_to st m = none := by
      unfold via_in_reply_to
      rw [if_neg (by simp [h1])]
    have hvr : via_references st m = some t := by
      unfold via_references
      rw [if_pos h2, if_pos h3, maxByIdDesc_eq _ p hmem hmax]
      show p.threadId = some t
      exact h4
    have hfp : find_parent_thread st m = some t := by
      unfold find_parent_thread
      rw [hv, hvr]
    simp only [assign_thread_for_message, hm, hnt, hfp]

/-- The unique parent for the C8 witness: message-id "x", thread 7. -/
def w8p : TMsg :=
  { id := 1, threadId := some 7, subject := "a".toList, message_id_header := "x".toList,
    in_reply_to_header := [], references_header := [], external_message_id := [],
    receivedAt := some 5 }

/-- The reply message for the C8 witness. -/
def w8m : TMsg :=
  { id := 3, threadId := none, subject := "s".toList, message_id_header := "m3".toList,
    in_reply_to_header := "x".toList, references_header := [], external_message_id := [],
    receivedAt := some 20 }

/-- The store for the C8 witness. -/
def w8st : TState :=
  { msgs := [w8p, w8m]
    threads := [{ id := 7, thread_key := "k7".toList, subject_norm := [] }]
    nextThreadId := 100
    msgWrites := 0 }

/-- C8, witness: with a unique threaded parent the reply inherits thread 7. -/
theorem C8_amended_witness : (assign_thread_for_message w8st 3).2 = some 7 := by
  have h := C8_amended w8st w8m w8p 7 (by decide) (by decide)
  exact h.1 (by decide) (by decide) (by decide)

/-! ### Classification cache (api/views.py LabelPreviewView together with
dataset/chatgpt_client.py)

The embedding slices the POST handler at step 4 (after message fetch and
sample resolution): inputs are the resolved sample id, the resolved request
kinds (`kinds_by_id`), the dictionary id found by `_find_dictionary` (the
same query `_dictionary_filter` runs inside `load_value_enums`), the model
name/version settings, and the label catalog that `load_value_enums` reads
from the Dictionary tables.  The external classifier's reply is an input
(`oracle`); the embedding records how many classifier calls are made and
which kind codes the call's tool schema enumerates. -/

/-- One DictionaryValue row (id, code). -/
structure ValueInfo where
  id : Nat
  code : List Char
deriving DecidableEq, Repr

/-- One DictionaryKind row (id, code, name); `code` is unique. -/
structure KindInfo where
  id : Nat
  code : List Char
  name : List Char
deriving DecidableEq, Repr

/-- The catalog `load_value_enums` builds: every DictionaryKind row, the
active DictionaryValue rows per kind (for the resolved dictionary), and the
full DictionaryValue table for foreign-key resolution of stored rows. -/
structure Catalog where
  kinds : List KindInfo
  valuesByKind : List (Nat × List ValueInfo)
  allValues : List ValueInfo
deriving DecidableEq, Repr

/-- `enums["kinds"]` lookup by kind code. -/
def kindByCode (cat : Catalog) (code : List Char) : Option KindInfo :=
  cat.kinds.find? (fun k => decide (k.code = code))

/-- The permitted (active) values of one kind. -/
def valuesOfKind (cat : Catalog) (kid : Nat) : List ValueInfo :=
  match cat.valuesByKind.find? (fun e => decide (e.1 = kid)) with
  | some e => e.2
  | none => []

/-- `enums["values_by_kind"][kind]["code_to_id"][value_code]`. -/
def valueCodeToId (cat : Catalog) (kid : Nat) (vcode : List Char) : Option Nat :=
  ((valuesOfKind cat kid).find? (fun v => decide (v.code = vcode))).map (fun v => v.id)

/-- `pred.value.code`: foreign-key resolution of a stored value id. -/
def valueCodeOf (cat : Catalog) (vid : Nat) : List Char :=
  match cat.allValues.find? (fun v => decide (v.id = vid)) with
  | some v => v.code
  | none => []

/-- `p.kind.code`: foreign-key resolution of a stored kind id. -/
def kindCodeOf (cat : Catalog) (kid : Nat) : List Char :=
  match cat.kinds.find? (fun k => decide (k.id = kid)) with
  | some k => k.code
  | none => []

/-- One label of the classifier's `set_labels` tool-call arguments. -/
structure RawLabel where
  kind : List Char
  value : List Char
  snippet : List Char
deriving DecidableEq, Repr

/-- One row produced by `to_label_rows`: local kind id, value id, snippet. -/
structure LabelRow where
  kindId : Nat
  valueId : Nat
  snippet : List Char
deriving DecidableEq, Repr

/-- `to_label_rows` (chatgpt_client.py line 205): every returned label must
name a known kind code and a permitted value code; the FIRST offending label
raises ValueError, aborting the whole conversion. -/
def to_label_rows (raw : List RawLabel) (cat : Catalog) :
    Except (List Char) (List LabelRow) :=
  match raw with
  | [] => .ok []
  | item :: rest =>
    if item.kind = [] then .error ("unknown kind".toList)
    else
      match kindByCode cat item.kind with
      | none => .error ("unknown kind".toList)
      | some k =>
        match valueCodeToId cat k.id item.value with
        | none => .error ("unknown value".toList)
        | some vid =>
          match to_label_rows rest cat with
          | .error e => .error e
          | .ok rows => .ok ({ kindId := k.id, valueId := vid, snippet := item.snippet } :: rows)

/-- One ModelPrediction row (sample, kind, value, model_name, model_version,
dictionary, evidence_snippet); `proba` is omitted - the handler stores the
constant 0.0 for every row it writes. -/
structure PredRow where
  sampleId : Nat
  kindId : Nat
  valueId : Nat
  modelName : List Char
  modelVersion : List Char
  dictionaryId : Option Nat
  snippet : List Char
deriving DecidableEq, Repr

/-- One row of the JSON `labels` response. -/
structure RespRow where
  kindId : Nat
  kindCode : List Char
  valueId : Nat
  valueCode : List Char
  snippet : List Char
deriving DecidableEq, Repr

/-- The observable outcome of one POST: number of external classifier calls,
the kind codes enumerated by that call's tool schema (empty when no call is
made), HTTP status, response rows, the `cached` flag, and the cache table
afterwards. -/
structure Outcome where
  calls : Nat
  schemaKinds : List (List Char)
  status : Nat
  rows : List RespRow
  cachedFlag : Bool
  cacheAfter : List PredRow
deriving DecidableEq, Repr

/-- Python string `<=` (lexicographic by code point). -/
def charListLe : List Char → List Char → Bool
  | [], _ => true
  | _ :: _, [] => false
  | a :: as, b :: bs => if a = b then charListLe as bs else decide (a < b)

/-- `sorted(enums["kinds"].keys())`: the kind-code enum of
`build_tool_schema_dynamic` - always the WHOLE catalog. -/
def sortedKindCodes (cat : Catalog) : List (List Char) :=
  List.insertionSort (fun x y => charListLe x y = true) (cat.kinds.map (fun k => k.code))

/-- Lexicographic `<=` on a (primary, secondary) string pair. -/
def pairLe (n1 c1 n2 c2 : List Char) : Bool :=
  if n1 = n2 then charListLe c1 c2 else charListLe n1 n2

/-- `kinds_qs.order_by("name", "code")` in `_sort_rows`. -/
def sortKindsByNameCode (ks : List KindInfo) : List KindInfo :=
  List.insertionSort (fun a b => pairLe a.name a.code b.name b.code = true) ks

/-- The 1-based position of a kind in the ordered request kinds (9999 when
absent), as built by `_sort_rows`. -/
def kindOrderIdx (reqKinds : List KindInfo) (kid : Nat) : Nat :=
  match (sortKindsByNameCode reqKinds).findIdx? (fun k => k.id == kid) with
  | some i => i + 1
  | none => 9999

/-- The `(order, value_code)` sort key comparison of `_sort_rows`. -/
def rowKeyLe (reqKinds : List KindInfo) (r1 r2 : RespRow) : Bool :=
  if kindOrderIdx reqKinds r1.kindId = kindOrderIdx reqKinds r2.kindId then
    charListLe r1.valueCode r2.valueCode
  else
    decide (kindOrderIdx reqKinds r1.kindId < kindOrderIdx reqKinds r2.kindId)

/-- `_sort_rows` (api/views.py line 869). -/
def sort_rows (reqKinds : List KindInfo) (rows : List RespRow) : List RespRow :=
  List.insertionSort (fun a b => rowKeyLe reqKinds a b = true) rows

/-- The cache lookup filter of step 4: sample, requested kinds, model name
and version, and - because ModelPrediction has a `dictionary` field - the
resolved dictionary when one was found. -/
def cachePredMatch (sample : Nat) (reqIds : List Nat) (mn mv : List Char)
    (dict : Option Nat) (p : PredRow) : Bool :=
  decide (p.sampleId = sample ∧ p.kindId ∈ reqIds ∧ p.modelName = mn ∧ p.modelVersion = mv) &&
  (match dict with
   | some d => decide (p.dictionaryId = some d)
   | none => true)

/-- `preds_qs` of step 4. -/
def cachedPredsOf (cache : List PredRow) (sample : Nat) (reqKinds : List KindInfo)
    (mn mv : List Char) (dict : Option Nat) : List PredRow :=
  cache.filter (cachePredMatch sample (reqKinds.map (fun k => k.id)) mn mv dict)

/-- `need_kind_ids`: the requested kind ids with no cached row. -/
def needKindIdsOf (cache : List PredRow) (sample : Nat) (reqKinds : List KindInfo)
    (mn mv : List Char) (dict : Option Nat) : List Nat :=
  (reqKinds.map (fun k => k.id)).filter (fun kid =>
    !((cachedPredsOf cache sample reqKinds mn mv dict).any (fun p => decide (p.kindId = kid))))

/-- A cached prediction rendered as a response row (kind and value codes via
foreign keys). -/
def rowOfPred (cat : Catalog) (p : PredRow) : RespRow :=
  { kindId := p.kindId
    kindCode := kindCodeOf cat p.kindId
    valueId := p.valueId
    valueCode := valueCodeOf cat p.valueId
    snippet := p.snippet }

/-- `kinds_by_id[kid].code` for freshly computed rows. -/
def reqKindCode (reqKinds : List KindInfo) (kid : Nat) : List Char :=
  match reqKinds.find? (fun k => decide (k.id = kid)) with
  | some k => k.code
  | none => []

/-- The key order of the `preds_by_kind_id` dict: kind ids in order of first
appearance. -/
def firstKeys (ps : List PredRow) : List Nat :=
  ps.foldl (fun acc p => if p.kindId ∈ acc then acc else acc ++ [p.kindId]) []

/-- The value stored under one `preds_by_kind_id` key: the last row wins. -/
def lastPredForKind (ps : List PredRow) (kid : Nat) : Option PredRow :=
  (ps.filter (fun p => decide (p.kindId = kid))).getLast?

/-- The `update_or_create` key of the prediction upsert: (sample, kind,
model_name, model_version, dictionary). -/
def predKeyMatch (sample kid : Nat) (mn mv : List Char) (dict : Option Nat)
    (p : PredRow) : Bool :=
  decide (p.sampleId = sample ∧ p.kindId = kid ∧ p.modelName = mn ∧ p.modelVersion = mv ∧
    p.dictionaryId = dict)

/-- `ModelPrediction.objects.update_or_create(…)`: returns the cache after the
write, the written row, and the `created` flag. -/
def upsertPred (cache : List PredRow) (sample kid : Nat) (mn mv : List Char)
    (dict : Option Nat) (vid : Nat) (snip : List Char) :
    List PredRow × PredRow × Bool :=
  let row : PredRow :=
    { sampleId := sample, kindId := kid, valueId := vid, modelName := mn,
      modelVersion := mv, dictionaryId := dict, snippet := snip }
  match cache.find? (predKeyMatch sample kid mn mv dict) with
  | some _ =>
    (cache.map (fun p => if predKeyMatch sample kid mn mv dict p then row else p), row, false)
  | none =>
    (cache ++ [row], row, true)

/-- The `for r in rows` loop of the handler: rows whose kind is outside
`need_kind_ids` are skipped silently; the rest are upserted (snippet
stripped) and appended to the response.  The view's remap-by-value-code
branch is unreachable for `to_label_rows` output, whose rows always carry a
mapped value id, and is therefore not modelled. -/
def processRows (cat : Catalog) (reqKinds : List KindInfo) (need : List Nat)
    (sample : Nat) (mn mv : List Char) (dict : Option Nat) :
    List LabelRow → List PredRow → List RespRow → Bool →
      List PredRow × List RespRow × Bool
  | [], cache, acc, saved => (cache, acc, saved)
  | r :: rest, cache, acc, saved =>
    if r.kindId ∈ need then
      let u := upsertPred cache sample r.kindId mn mv dict r.valueId (pyStrip r.snippet)
      processRows cat reqKinds need sample mn mv dict rest u.1
        (acc ++ [{ kindId := u.2.1.kindId
                   kindCode := reqKindCode reqKinds u.2.1.kindId
                   valueId := u.2.1.valueId
                   valueCode := valueCodeOf cat u.2.1.valueId
                   snippet := u.2.1.snippet }])
        (saved || u.2.2)
    else
      processRows cat reqKinds need sample mn mv dict rest cache acc saved

/-- `LabelPreviewView.post`, steps 4-6 (api/views.py lines 713-843): check the
cache; on a full hit answer from the cache with zero classifier calls;
otherwise make exactly one classifier call whose tool schema enumerates ALL
catalog kinds, reject the whole reply with 422 when `to_label_rows` raises,
else upsert the rows for missing kinds, append the cached rows, and answer
with the sorted union. -/
def labelPreview (cache : List PredRow) (sample : Nat) (reqKinds : List KindInfo)
    (cat : Catalog) (dict : Option Nat) (mn mv : List Char)
    (oracle : List RawLabel) : Outcome :=
  if needKindIdsOf cache sample reqKinds mn mv dict = [] then
    { calls := 0
      schemaKinds := []
      status := 200
      rows := sort_rows reqKinds
        ((cachedPredsOf cache sample reqKinds mn mv dict).map (rowOfPred cat))
      cachedFlag := true
      cacheAfter := cache }
  else
    match to_label_rows oracle cat with
    | .error _ =>
      { calls := 1
        schemaKinds := sortedKindCodes cat
        status := 422
        rows := []
        cachedFlag := false
        cacheAfter := cache }
    | .ok lrows =>
      let res := processRows cat reqKinds (needKindIdsOf cache sample reqKinds mn mv dict)
        sample mn mv dict lrows cache [] false
      let cachedRows := (firstKeys (cachedPredsOf cache sample reqKinds mn mv dict)).filterMap
        (fun kid => (lastPredForKind (cachedPredsOf cache sample reqKinds mn mv dict) kid).map
          (rowOfPred cat))
      { calls := 1
        schemaKinds := sortedKindCodes cat
        status := 200
        rows := sort_rows reqKinds (res.2.1 ++ cachedRows)
        cachedFlag := !res.2.2
        cacheAfter := res.1 }

/-! ### Lemmas on the classification-cache handler -/

/-- Sorting the response rows never adds or removes a row. -/
theorem mem_sort_rows (reqKinds : List KindInfo) (r : RespRow) (l : List RespRow) :
    r ∈ sort_rows reqKinds l ↔ r ∈ l :=
  (List.perm_insertionSort _ l).mem_iff

/-- The row an upsert writes. -/
theorem upsertPred_row (cache : List PredRow) (sample kid : Nat) (mn mv : List Char)
    (dict : Option Nat) (vid : Nat) (snip : List Char) :
    (upsertPred cache sample kid mn mv dict vid snip).2.1 =
      { sampleId := sample, kindId := kid, valueId := vid, modelName := mn,
        modelVersion := mv, dictionaryId := dict, snippet := snip } := by
  unfold upsertPred
  split <;> rfl

/-- The written row is in the cache after the upsert. -/
theorem upsertPred_mem (cache : List PredRow) (sample kid : Nat) (mn mv : List Char)
    (dict : Option Nat) (vid : Nat) (snip : List Char) :
    (upsertPred cache sample kid mn mv dict vid snip).2.1 ∈
      (upsertPred cache sample kid mn mv dict vid snip).1 := by
  unfold upsertPred
  rcases hf : cache.find? (predKeyMatch sample kid mn mv dict) with _ | q
  · simp
  · have hq := List.find?_some hf
    have hqmem := List.mem_of_find?_eq_some hf
    refine List.mem_map.mpr ⟨q, hqmem, ?_⟩
    rw [if_pos hq]

/-- Processing a single returned label for a missing kind: the label is
upserted and a fresh response row is produced. -/
theorem processRows_single (cat : Catalog) (reqKinds : List KindInfo) (need : List Nat)
    (sample : Nat) (mn mv : List Char) (dict : Option Nat) (r : LabelRow)
    (cache : List PredRow) (hr : r.kindId ∈ need) :
    processRows cat reqKinds need sample mn mv dict [r] cache [] false =
      ((upsertPred cache sample r.kindId mn mv dict r.valueId (pyStrip r.snippet)).1,
        [{ kindId := r.kindId
           kindCode := reqKindCode reqKinds r.kindId
           valueId := r.valueId
           valueCode := valueCodeOf cat r.valueId
           snippet := pyStrip r.snippet }],
        (upsertPred cache sample r.kindId mn mv dict r.valueId (pyStrip r.snippet)).2.2) := by
  unfold processRows
  rw [if_pos hr]
  unfold processRows
  rw [upsertPred_row]
  simp

/-! ### Claim C3 -/

/-- A two-kind catalog: kind 1 "k1" with value 11 "x", kind 2 "k2" with
value 21 "y". -/
def cat3 : Catalog :=
  { kinds := [ { id := 1, code := "k1".toList, name := "a".toList },
               { id := 2, code := "k2".toList, name := "b".toList } ]
    valuesByKind := [ (1, [{ id := 11, code := "x".toList }]),
                      (2, [{ id := 21, code := "y".toList }]) ]
    allValues := [ { id := 11, code := "x".toList }, { id := 21, code := "y".toList } ] }

/-- The configured model name. -/
def mn3 : List Char := "openai".toList

/-- The configured model version. -/
def mv3 : List Char := "gpt".toList

/-- A cache holding kind 1 for sample 5 (kind 2 is missing). -/
def cache3 : List PredRow :=
  [ { sampleId := 5, kindId := 1, valueId := 11, modelName := mn3, modelVersion := mv3,
      dictionaryId := none, snippet := [] } ]

/-- The classifier's reply: one valid label for the missing kind 2. -/
def oracle3 : List RawLabel := [ { kind := "k2".toList, value := "y".toList, snippet := [] } ]

/-- The outcome of requesting both kinds when only kind 1 is cached. -/
def out3 : Outcome := labelPreview cache3 5 cat3.kinds cat3 none mn3 mv3 oracle3

/-- C3, counterexample: with kind 1 cached and only kind 2 missing, exactly
one classifier call is made, but its tool schema enumerates BOTH catalog kind
codes - the call requests the full catalog, not only the missing kind. -/
theorem C3_counterexample :
    needKindIdsOf cache3 5 cat3.kinds mn3 mv3 none = [2] ∧
    out3.calls = 1 ∧
    out3.schemaKinds = ["k1".toList, "k2".toList] ∧
    out3.schemaKinds ≠ ["k2".toList] := by
  decide

/-- C3, amended: the handler computes the missing set as the requested kinds
minus the cached kinds; an empty missing set makes zero classifier calls,
answers from the cache alone and reports a full cache hit; a non-empty
missing set makes exactly one call whose tool schema enumerates the whole
catalog (not only the missing kinds); and in the one-cached/one-missing case
the merged response carries both the cached row and the freshly computed row,
which is also upserted into the cache. -/
theorem C3_amended (cache : List PredRow) (sample : Nat) (reqKinds : List KindInfo)
    (cat : Catalog) (dict : Option Nat) (mn mv : List Char) (oracle : List RawLabel) :
    (∀ kid, kid ∈ needKindIdsOf cache sample reqKinds mn mv dict ↔
      (kid ∈ reqKinds.map (fun k => k.id) ∧
        ∀ p ∈ cachedPredsOf cache sample reqKinds mn mv dict, p.kindId ≠ kid)) ∧
    (needKindIdsOf cache sample reqKinds mn mv dict = [] →
      (labelPreview cache sample reqKinds cat dict mn mv oracle).calls = 0 ∧
      (labelPreview cache sample reqKinds cat dict mn mv oracle).cachedFlag = true ∧
      (labelPreview cache sample reqKinds cat dict mn mv oracle).cacheAfter = cache ∧
      (labelPreview cache sample reqKinds cat dict mn mv oracle).rows =
        sort_rows reqKinds
          ((cachedPredsOf cache sample reqKinds mn mv dict).map (rowOfPred cat))) ∧
    (needKindIdsOf cache sample reqKinds mn mv dict ≠ [] →
      (labelPreview cache sample reqKinds cat dict mn mv oracle).calls = 1 ∧
      (labelPreview cache sample reqKinds cat dict mn mv oracle).schemaKinds =
        sortedKindCodes cat) ∧
    (∀ p1 r2, cachedPredsOf cache sample reqKinds mn mv dict = [p1] →
      needKindIdsOf cache sample reqKinds mn mv dict = [r2.kindId] →
      to_label_rows oracle cat = .ok [r2] →
      (∃ r ∈ (labelPreview cache sample reqKinds cat dict mn mv oracle).rows,
        r.kindId = r2.kindId ∧ r.valueId = r2.valueId) ∧
      (∃ r ∈ (labelPreview cache sample reqKinds cat dict mn mv oracle).rows,
        r.kindId = p1.kindId ∧ r.valueId = p1.valueId) ∧
      (∃ q ∈ (labelPreview cache sample reqKinds cat dict mn mv oracle).cacheAfter,
        q.sampleId = sample ∧ q.kindId = r2.kindId ∧ q.valueId = r2.valueId)) := by
  refine ⟨?_, ?_, ?_, ?_⟩
  · intro kid
    simp only [needKindIdsOf, List.mem_filter, Bool.not_eq_true', List.any_eq_false,
      decide_eq_true_eq]
  · intro h
    simp only [labelPreview]
    rw [if_pos h]
    exact ⟨rfl, rfl, rfl, rfl⟩
  · intro h
    simp only [labelPreview]
    rw [if_neg h]
    rcases htr : to_label_rows oracle cat with e | lrows
    · exact ⟨rfl, rfl⟩
    · exact ⟨rfl, rfl⟩
  · intro p1 r2 h1 h2 h3
    have hneed : needKindIdsOf cache sample reqKinds mn mv dict ≠ [] := by
      rw [h2]
      simp
    have hout : labelPreview cache sample reqKinds cat dict mn mv oracle =
        { calls := 1
          schemaKinds := sortedKindCodes cat
          status := 200
          rows := sort_rows reqKinds
            ([{ kindId := r2.kindId
                kindCode := reqKindCode reqKinds r2.kindId
                valueId := r2.valueId
                valueCode := valueCodeOf cat r2.valueId
                snippet := pyStrip r2.snippet }] ++ [rowOfPred cat p1])
          cachedFlag :=
            !(upsertPred cache sample r2.kindId mn mv dict r2.valueId (pyStrip r2.snippet)).2.2
          cacheAfter :=
            (upsertPred cache sample r2.kindId mn mv dict r2.valueId (pyStrip r2.snippet)).1 } := by
      simp only [labelPreview]
      rw [if_neg hneed]
      simp only [h3]
      rw [h2, h1, processRows_single cat reqKinds [r2.kindId] sample mn mv dict r2 cache
        (by simp)]
      have hfk : firstKeys [p1] = [p1.kindId] := by simp [firstKeys]
      have hlp : lastPredForKind [p1] p1.kindId = some p1 := by
        simp [lastPredForKind]
      rw [hfk]
      simp [hlp]
    have hrows : (labelPreview cache sample reqKinds cat dict mn mv oracle).rows =
        sort_rows reqKinds
          ([⟨r2.kindId, reqKindCode reqKinds r2.kindId, r2.valueId,
              valueCodeOf cat r2.valueId, pyStrip r2.snippet⟩] ++ [rowOfPred cat p1]) := by
      rw [hout]
    have hcache : (labelPreview cache sample reqKinds cat dict mn mv oracle).cacheAfter =
        (upsertPred cache sample r2.kindId mn mv dict r2.valueId (pyStrip r2.snippet)).1 := by
      rw [hout]
    refine ⟨?_, ?_, ?_⟩
    · rw [hrows]
      refine ⟨⟨r2.kindId, reqKindCode reqKinds r2.kindId, r2.valueId,
          valueCodeOf cat r2.valueId, pyStrip r2.snippet⟩, ?_, rfl, rfl⟩
      rw [mem_sort_rows]
      simp
    · rw [hrows]
      refine ⟨rowOfPred cat p1, ?_, rfl, rfl⟩
      rw [mem_sort_rows]
      simp
    · rw [hcache]
      refine ⟨(upsertPred cache sample r2.kindId mn mv dict r2.valueId (pyStrip r2.snippet)).2.1,
        upsertPred_mem cache sample r2.kindId mn mv dict r2.valueId (pyStrip r2.snippet), ?_⟩
      rw [upsertPred_row]
      exact ⟨rfl, rfl, rfl⟩

/-- C3, witness: the amended theorem's merge clause at the concrete
one-cached/one-missing scenario. -/
theorem C3_amended_witness :
    (∃ r ∈ out3.rows, r.kindId = 2 ∧ r.valueId = 21) ∧
    (∃ r ∈ out3.rows, r.kindId = 1 ∧ r.valueId = 11) ∧
    (∃ q ∈ out3.cacheAfter, q.sampleId = 5 ∧ q.kindId = 2 ∧ q.valueId = 21) := by
  have h := (C3_amended cache3 5 cat3.kinds cat3 none mn3 mv3 oracle3).2.2.2
    { sampleId := 5, kindId := 1, valueId := 11, modelName := mn3, modelVersion := mv3,
      dictionaryId := none, snippet := [] }
    { kindId := 2, valueId := 21, snippet := [] }
    (by decide) (by decide) (by rfl)
  exact h

/-! ### Claim C4 -/

/-- A classifier label rejected by `to_label_rows`: blank or unknown kind
code, or a value code outside the permitted set of its kind. -/
def badLabel (cat : Catalog) (lab : RawLabel) : Prop :=
  lab.kind = [] ∨ kindByCode cat lab.kind = none ∨
    (∃ k, kindByCode cat lab.kind = some k ∧ valueCodeToId cat k.id lab.value = none)

/-- A single bad label anywhere in the reply makes `to_label_rows` raise. -/
theorem to_label_rows_error (cat : Catalog) (raw : List RawLabel)
    (h : ∃ lab ∈ raw, badLabel cat lab) :
    ∃ e, to_label_rows raw cat = .error e := by
  induction raw with
  | nil => simp at h
  | cons item rest ih =>
    obtain ⟨lab, hlab, hbad⟩ := h
    rcases List.mem_cons.mp hlab with hh | hh
    · subst hh
      unfold to_label_rows
      rcases hbad with hb | hb | ⟨k, hk, hv⟩
      · rw [if_pos hb]
        exact ⟨_, rfl⟩
      · by_cases h0 : lab.kind = []
        · rw [if_pos h0]
          exact ⟨_, rfl⟩
        · rw [if_neg h0]
          simp only [hb]
          exact ⟨_, rfl⟩
      · by_cases h0 : lab.kind = []
        · rw [if_pos h0]
          exact ⟨_, rfl⟩
        · rw [if_neg h0]
          simp only [hk, hv]
          exact ⟨_, rfl⟩
    · unfold to_label_rows
      by_cases h0 : item.kind = []
      · rw [if_pos h0]
        exact ⟨_, rfl⟩
      · rw [if_neg h0]
        rcases hk : kindByCode cat item.kind with _ | k
        · simp only [hk]
          exact ⟨_, rfl⟩
        · simp only [hk]
          rcases hv : valueCodeToId cat k.id item.value with _ | vid
          · simp only [hv]
            exact ⟨_, rfl⟩
          · simp only [hv]
            obtain ⟨e, he⟩ := ih ⟨lab, hh, hbad⟩
            rw [he]
            exact ⟨e, rfl⟩

/-- The classifier's reply for C4: a valid label for kind 1 followed by a
label for kind 2 whose value code "zz" is outside the permitted set. -/
def oracle4 : List RawLabel :=
  [ { kind := "k1".toList, value := "x".toList, snippet := [] },
    { kind := "k2".toList, value := "zz".toList, snippet := [] } ]

/-- The outcome of a request over an empty cache answered by `oracle4`. -/
def out4 : Outcome := labelPreview [] 5 cat3.kinds cat3 none mn3 mv3 oracle4

/-- C4, counterexample: the batch holds a valid kind-1 label (alone it would
convert fine) and a kind-2 label with an unpermitted value; the handler
answers 422 and writes NO cache row - the valid sibling kind is not upserted,
so rejection is batch-level, not row-level. -/
theorem C4_counterexample :
    to_label_rows [{ kind := "k1".toList, value := "x".toList, snippet := [] }] cat3 =
      .ok [{ kindId := 1, valueId := 11, snippet := [] }] ∧
    out4.status = 422 ∧
    out4.cacheAfter = [] ∧
    out4.rows = [] := by
  exact ⟨by rfl, by decide, by decide, by decide⟩

/-- C4, amended: when some kinds are missing and the classifier's reply holds
any label with an unknown kind code or a value code outside the permitted set
for its kind, the WHOLE batch is rejected: `to_label_rows` raises, the
handler answers 422, no response rows are produced, and no cache row is
written for any label of the batch - valid sibling kinds included. -/
theorem C4_amended (cache : List PredRow) (sample : Nat) (reqKinds : List KindInfo)
    (cat : Catalog) (dict : Option Nat) (mn mv : List Char) (oracle : List RawLabel)
    (hneed : needKindIdsOf cache sample reqKinds mn mv dict ≠ [])
    (hbad : ∃ lab ∈ oracle, badLabel cat lab) :
    (labelPreview cache sample reqKinds cat dict mn mv oracle).status = 422 ∧
    (labelPreview cache sample reqKinds cat dict mn mv oracle).cacheAfter = cache ∧
    (labelPreview cache sample reqKinds cat dict mn mv oracle).rows = [] := by
  obtain ⟨e, he⟩ := to_label_rows_error cat oracle hbad
  simp only [labelPreview]
  rw [if_neg hneed, he]
  exact ⟨rfl, rfl, rfl⟩

/-- C4, witness: the amended theorem at the concrete bad batch `oracle4`. -/
theorem C4_amended_witness :
    out4.status = 422 ∧ out4.cacheAfter = [] ∧ out4.rows = [] := by
  have h := C4_amended [] 5 cat3.kinds cat3 none mn3 mv3 oracle4 (by decide)
    ⟨{ kind := "k2".toList, value := "zz".toList, snippet := [] }, by decide, by
      right
      right
      exact ⟨{ id := 2, code := "k2".toList, name := "b".toList }, by decide, by decide⟩⟩
  exact h

end AiInvite
